import Mathlib

/-
Shallow embedding of the forecasting and scheduling core of the
shiftschedular repository (src/services/ForecastService.js: the
ForecastService class and the ScheduleOptimizer class), together with
proofs of the behavioural properties stated in the project
specification.  Machine numbers are modelled as exact rationals, JS
`Math.floor` / `Math.ceil` / `Math.round` as the integer floor, ceil and
round of `ℚ`, and fallible operations as `Except` / `Option` values.
-/

namespace ShiftSched

/-- Models the JavaScript defaulting idiom `x || d` for a numeric field:
`null` / `undefined` (here `none`) and `0` both fall back to the default. -/
def jsOr (x : Option ℚ) (d : ℚ) : ℚ :=
  match x with
  | none => d
  | some v => if v = 0 then d else v

/-- One historical observation, as returned by `getHistoricalData`
(`{date, volume, hour}`); only the volume is read by the predictor. -/
structure Sample where
  volume : ℚ
  deriving DecidableEq

/-- Result of `getSeasonalFactors`. -/
structure SeasonalFactors where
  seasonal : ℚ
  trend : ℚ
  deriving DecidableEq

/-- Result of `getExternalFactors`. -/
structure ExternalFactors where
  holidayFactor : ℚ
  weather : ℚ
  specialEvent : ℚ
  deriving DecidableEq

/-- Result record of `calculatePredictedVolume`. -/
structure Prediction where
  volume : ℤ
  confidence : ℚ
  minVolume : ℤ
  maxVolume : ℤ
  deriving DecidableEq

/-- ForecastService.calculateVariance: population variance of a list of
values, with an early `0` return for fewer than two values. -/
def calculateVariance (values : List ℚ) : ℚ :=
  if values.length < 2 then 0
  else
    let mean := values.sum / values.length
    let squaredDiffs := values.map (fun val => (val - mean) ^ 2)
    squaredDiffs.sum / values.length

/-- ForecastService.calculatePredictedVolume: historical mean, seasonal and
external multiplicative adjustment, and a variance-derived confidence with
min/max bounds.  The empty-history case returns the fixed fallback record.
Caution: the confidence divides by the mean volume, and for an all-zero
non-empty history the source computes `1 - 0/0 = NaN`, which poisons the
confidence and both bounds; the total division of `ℚ` instead gives
`0/0 = 0` there, so that error path is not modelled — the bounds theorem
below therefore assumes a positive volume sum for non-empty histories. -/
def calculatePredictedVolume (historicalData : List Sample)
    (seasonalFactors : SeasonalFactors) (externalFactors : ExternalFactors) :
    Prediction :=
  if historicalData.length = 0 then
    { volume := 10, confidence := 30/100, minVolume := 5, maxVolume := 20 }
  else
    let baseVolume := (historicalData.map (fun d => d.volume)).sum / historicalData.length
    let seasonallyAdjusted := baseVolume * seasonalFactors.seasonal * seasonalFactors.trend
    let finalVolume : ℤ :=
      round (seasonallyAdjusted * externalFactors.specialEvent *
        externalFactors.weather * externalFactors.holidayFactor)
    let variance := calculateVariance (historicalData.map (fun d => d.volume))
    let confidence := max (40/100) (min (95/100) (1 - variance / baseVolume))
    let variabilityFactor := 1 - confidence
    let minVolume : ℤ := max 0 ⌊(finalVolume : ℚ) * (1 - variabilityFactor)⌋
    let maxVolume : ℤ := ⌈(finalVolume : ℚ) * (1 + variabilityFactor)⌉
    { volume := finalVolume, confidence := confidence,
      minVolume := minVolume, maxVolume := maxVolume }

/-- Arithmetic mean of a list of volumes, written from the specification
text (spec 4.2: `baseVolume = arithmetic mean of sample volumes`). -/
def specMean (vals : List ℚ) : ℚ :=
  vals.sum / vals.length

/-- Population variance of a list of volumes, written from the
specification text (spec 4.2: `variance = population variance`). -/
def specPopVariance (vals : List ℚ) : ℚ :=
  ((vals.map (fun v => (v - specMean vals) ^ 2)).sum) / vals.length

lemma floor_eq_of_bounds (q : ℚ) (n : ℤ) (h1 : (n : ℚ) ≤ q) (h2 : q < n + 1) :
    ⌊q⌋ = n := by
  rw [Int.floor_eq_iff]
  exact ⟨h1, by exact_mod_cast h2⟩

lemma ceil_eq_of_bounds (q : ℚ) (n : ℤ) (h1 : (n : ℚ) - 1 < q) (h2 : q ≤ n) :
    ⌈q⌉ = n := by
  rw [Int.ceil_eq_iff]
  exact ⟨by exact_mod_cast h1, h2⟩

lemma round_eq_of_bounds (q : ℚ) (n : ℤ) (h1 : (n : ℚ) ≤ q + 1/2) (h2 : q + 1/2 < n + 1) :
    round q = n := by
  rw [round_eq]
  exact floor_eq_of_bounds _ _ h1 h2

lemma calculateVariance_eq_specPopVariance (vals : List ℚ) (h : vals ≠ []) :
    calculateVariance vals = specPopVariance vals := by
  unfold calculateVariance specPopVariance specMean
  by_cases h2 : vals.length < 2
  · interval_cases hlen : vals.length
    · simp at hlen
      exact absurd hlen h
    · match vals, hlen with
      | [v], _ => simp
  · simp [h2]

lemma round_nonneg (q : ℚ) (h : 0 ≤ q) : 0 ≤ round q := by
  rw [round_eq]
  exact Int.le_floor.mpr (by push_cast; linarith)

/-- C1 (amended): for histories whose sample volumes are non-negative with
a positive sum when the history is non-empty (so that the mean dividing the
confidence is positive — an all-zero history hits `0/0 = NaN` in the
source, outside this exact-arithmetic embedding), and non-negative factor
values, every output of `calculatePredictedVolume` satisfies
`minVolume ≤ volume ≤ maxVolume`, and the confidence lies in
`[0.30, 0.95]`: it is exactly `0.30` in the empty-history case and
`clamp(1 - variance/baseVolume, 0.40, 0.95)` otherwise, where `variance`
is the population variance of the sample volumes and `baseVolume` their
arithmetic mean. -/
theorem calculatePredictedVolume_bounds (historicalData : List Sample)
    (sf : SeasonalFactors) (ef : ExternalFactors)
    (hvols : ∀ s ∈ historicalData, 0 ≤ s.volume)
    (hpos : historicalData ≠ [] → 0 < (historicalData.map (fun d => d.volume)).sum)
    (hseas : 0 ≤ sf.seasonal) (htrend : 0 ≤ sf.trend)
    (hhol : 0 ≤ ef.holidayFactor) (hwea : 0 ≤ ef.weather)
    (hspe : 0 ≤ ef.specialEvent) :
    (calculatePredictedVolume historicalData sf ef).minVolume ≤
      (calculatePredictedVolume historicalData sf ef).volume ∧
    (calculatePredictedVolume historicalData sf ef).volume ≤
      (calculatePredictedVolume historicalData sf ef).maxVolume ∧
    30/100 ≤ (calculatePredictedVolume historicalData sf ef).confidence ∧
    (calculatePredictedVolume historicalData sf ef).confidence ≤ 95/100 ∧
    (historicalData = [] →
      (calculatePredictedVolume historicalData sf ef).confidence = 30/100) ∧
    (historicalData ≠ [] →
      (calculatePredictedVolume historicalData sf ef).confidence =
        max (40/100) (min (95/100)
          (1 - specPopVariance (historicalData.map (fun d => d.volume)) /
            specMean (historicalData.map (fun d => d.volume))))) := by
  by_cases hE : historicalData.length = 0
  · have hnil : historicalData = [] := List.length_eq_zero.mp hE
    subst hnil
    refine ⟨?_, ?_, ?_, ?_, ?_, ?_⟩ <;> simp [calculatePredictedVolume]
    all_goals norm_num
  · have hnil : historicalData ≠ [] := fun h => hE (by simp [h])
    have hlen : (0 : ℚ) < historicalData.length := by
      have : 0 < historicalData.length := List.length_pos.mpr hnil
      exact_mod_cast this
    have hsum : 0 < (historicalData.map (fun d => d.volume)).sum := hpos hnil
    have hbase : 0 ≤ (historicalData.map (fun d => d.volume)).sum / historicalData.length :=
      le_of_lt (div_pos hsum hlen)
    have heq : calculatePredictedVolume historicalData sf ef =
        { volume := round ((historicalData.map (fun d => d.volume)).sum /
              historicalData.length * sf.seasonal * sf.trend * ef.specialEvent *
              ef.weather * ef.holidayFactor),
          confidence := max (40/100) (min (95/100)
            (1 - calculateVariance (historicalData.map (fun d => d.volume)) /
              ((historicalData.map (fun d => d.volume)).sum / historicalData.length))),
          minVolume := max 0 ⌊(round ((historicalData.map (fun d => d.volume)).sum /
              historicalData.length * sf.seasonal * sf.trend * ef.specialEvent *
              ef.weather * ef.holidayFactor) : ℚ) *
              (1 - (1 - max (40/100) (min (95/100)
                (1 - calculateVariance (historicalData.map (fun d => d.volume)) /
                  ((historicalData.map (fun d => d.volume)).sum / historicalData.length)))))⌋,
          maxVolume := ⌈(round ((historicalData.map (fun d => d.volume)).sum /
              historicalData.length * sf.seasonal * sf.trend * ef.specialEvent *
              ef.weather * ef.holidayFactor) : ℚ) *
              (1 + (1 - max (40/100) (min (95/100)
                (1 - calculateVariance (historicalData.map (fun d => d.volume)) /
                  ((historicalData.map (fun d => d.volume)).sum / historicalData.length)))))⌉ } := by
      simp only [calculatePredictedVolume, hE, if_false]
    set base := (historicalData.map (fun d => d.volume)).sum / historicalData.length with hbaseDef
    set fvArg := base * sf.seasonal * sf.trend * ef.specialEvent * ef.weather *
      ef.holidayFactor with hfvArg
    set conf := max (40/100) (min (95/100)
      (1 - calculateVariance (historicalData.map (fun d => d.volume)) / base)) with hconf
    have hArg : 0 ≤ fvArg := by positivity
    have hfv : 0 ≤ round fvArg := round_nonneg _ hArg
    have hfvQ : (0 : ℚ) ≤ (round fvArg : ℚ) := by exact_mod_cast hfv
    have hconfLo : 40/100 ≤ conf := le_max_left _ _
    have hconfHi : conf ≤ 95/100 := max_le (by norm_num) (min_le_left _ _)
    rw [heq]
    refine ⟨?_, ?_, ?_, ?_, ?_, ?_⟩
    · apply max_le
      · exact hfv
      · calc ⌊(round fvArg : ℚ) * (1 - (1 - conf))⌋
            ≤ ⌊(round fvArg : ℚ)⌋ :=
              Int.floor_mono (mul_le_of_le_one_right hfvQ (by linarith))
          _ = round fvArg := Int.floor_intCast _
    · calc round fvArg = ⌈(round fvArg : ℚ)⌉ := (Int.ceil_intCast _).symm
        _ ≤ ⌈(round fvArg : ℚ) * (1 + (1 - conf))⌉ :=
          Int.ceil_mono (le_mul_of_one_le_right hfvQ (by linarith))
    · calc (30/100 : ℚ) ≤ 40/100 := by norm_num
        _ ≤ conf := hconfLo
    · exact hconfHi
    · intro h
      exact absurd h hnil
    · intro _
      show conf = _
      rw [hconf, calculateVariance_eq_specPopVariance _ (by simpa using hnil)]
      have : specMean (historicalData.map (fun d => d.volume)) = base := by
        rw [specMean, hbaseDef, List.length_map]
      rw [this]

/-- C1 counterexample: with a single sample of volume 10 and holiday factor
−1 (seasonal, trend, weather, special-event all 1), the returned record has
`minVolume = 0 > volume = −10`, refuting the claim for arbitrary factor
values. -/
theorem calculatePredictedVolume_neg_factor_violates_bounds :
    ¬ ((calculatePredictedVolume [⟨10⟩] ⟨1, 1⟩ ⟨-1, 1, 1⟩).minVolume ≤
       (calculatePredictedVolume [⟨10⟩] ⟨1, 1⟩ ⟨-1, 1, 1⟩).volume) := by
  have hround : round ((-10 : ℚ)) = -10 :=
    round_eq_of_bounds _ _ (by norm_num) (by norm_num)
  have heq : calculatePredictedVolume [⟨10⟩] ⟨1, 1⟩ ⟨-1, 1, 1⟩ =
      { volume := -10, confidence := 95/100, minVolume := 0, maxVolume := -10 } := by
    simp only [calculatePredictedVolume, calculateVariance]
    norm_num
    rw [hround]
    refine ⟨rfl, ?_, ?_⟩
    · rw [show ((-10 : ℤ) : ℚ) * (19/20) = -19/2 by push_cast; norm_num]
      rw [floor_eq_of_bounds (-19/2) (-10) (by norm_num) (by norm_num)]
      norm_num
    · rw [show ((-10 : ℤ) : ℚ) * (21/20) = -21/2 by push_cast; norm_num]
      rw [ceil_eq_of_bounds (-21/2) (-10) (by norm_num) (by norm_num)]
  rw [heq]
  decide

/-- C1 witness: the amended bound theorem applied to the concrete history
`[4, 8]` with all factors 1. -/
theorem calculatePredictedVolume_bounds_witness :
    (∀ s ∈ ([⟨4⟩, ⟨8⟩] : List Sample), 0 ≤ s.volume) ∧
    (0 : ℚ) < (([⟨4⟩, ⟨8⟩] : List Sample).map (fun d => d.volume)).sum ∧
    ((calculatePredictedVolume [⟨4⟩, ⟨8⟩] ⟨1, 1⟩ ⟨1, 1, 1⟩).minVolume ≤
      (calculatePredictedVolume [⟨4⟩, ⟨8⟩] ⟨1, 1⟩ ⟨1, 1, 1⟩).volume ∧
     (calculatePredictedVolume [⟨4⟩, ⟨8⟩] ⟨1, 1⟩ ⟨1, 1, 1⟩).volume ≤
      (calculatePredictedVolume [⟨4⟩, ⟨8⟩] ⟨1, 1⟩ ⟨1, 1, 1⟩).maxVolume ∧
     30/100 ≤ (calculatePredictedVolume [⟨4⟩, ⟨8⟩] ⟨1, 1⟩ ⟨1, 1, 1⟩).confidence ∧
     (calculatePredictedVolume [⟨4⟩, ⟨8⟩] ⟨1, 1⟩ ⟨1, 1, 1⟩).confidence ≤ 95/100 ∧
     (([⟨4⟩, ⟨8⟩] : List Sample) = [] →
       (calculatePredictedVolume [⟨4⟩, ⟨8⟩] ⟨1, 1⟩ ⟨1, 1, 1⟩).confidence = 30/100) ∧
     (([⟨4⟩, ⟨8⟩] : List Sample) ≠ [] →
       (calculatePredictedVolume [⟨4⟩, ⟨8⟩] ⟨1, 1⟩ ⟨1, 1, 1⟩).confidence =
         max (40/100) (min (95/100)
           (1 - specPopVariance (([⟨4⟩, ⟨8⟩] : List Sample).map (fun d => d.volume)) /
             specMean (([⟨4⟩, ⟨8⟩] : List Sample).map (fun d => d.volume)))))) :=
  ⟨by intro s hs; fin_cases hs <;> norm_num,
   by norm_num,
   calculatePredictedVolume_bounds [⟨4⟩, ⟨8⟩] ⟨1, 1⟩ ⟨1, 1, 1⟩
     (by intro s hs; fin_cases hs <;> norm_num)
     (fun _ => by norm_num)
     (by norm_num) (by norm_num) (by norm_num) (by norm_num) (by norm_num)⟩

/-- C3: for the empty history list, `calculatePredictedVolume` returns
exactly `{volume := 10, confidence := 0.30, minVolume := 5, maxVolume := 20}`
whatever the seasonal, trend and external factor arguments are; it is a
total function, so this is a defined result, not an error. -/
theorem calculatePredictedVolume_empty (sf : SeasonalFactors)
    (ef : ExternalFactors) :
    calculatePredictedVolume [] sf ef =
      { volume := 10, confidence := 30/100, minVolume := 5, maxVolume := 20 } :=
  rfl

/-- A channel record as read by the core.  The numeric service parameters
are nullable and are defaulted by the service with the JS `||` idiom; the
operating-hours fields hold the hour parsed from the stored `HH:MM:SS`
string (the code reads `parseInt(value.split(':')[0])`). -/
structure Channel where
  operating_hours_start : ℕ
  operating_hours_end : ℕ
  average_handle_time : Option ℚ
  wrap_up_time : Option ℚ
  service_level_target : Option ℚ
  service_level_threshold : Option ℚ
  shrinkage_factor : Option ℚ
  min_staffing_level : Option ℚ
  preferred_staffing_buffer : Option ℚ
  deriving DecidableEq

/-- Result record of `calculateRequiredAgents`. -/
structure StaffingResult where
  required : ℚ
  optimal : ℚ
  minimum : ℚ
  predictedServiceLevel : ℚ
  predictedWaitTime : ℚ
  deriving DecidableEq

/-- ForecastService.calculateServiceLevelBuffer. -/
def calculateServiceLevelBuffer (serviceLevel targetAnswerTime : ℚ) : ℚ :=
  1 + (serviceLevel - 1/2) * (1/2)

/-- ForecastService.predictServiceLevel. -/
def predictServiceLevel (agents workload targetSeconds : ℚ) : ℚ :=
  let utilization := workload / agents
  if 1 ≤ utilization then 10/100
  else max (10/100) (min (99/100) (1 - utilization))

/-- ForecastService.predictAverageWaitTime (in seconds). -/
def predictAverageWaitTime (agents workload : ℚ) : ℚ :=
  let utilization := workload / agents
  if 1 ≤ utilization then 300
  else max 0 (utilization * 60)

/-- ForecastService.calculateRequiredAgents: the simplified Erlang-style
staffing calculation. -/
def calculateRequiredAgents (predictedVolume : Prediction) (channel : Channel) :
    StaffingResult :=
  let volume : ℚ := predictedVolume.volume
  let aht := jsOr channel.average_handle_time 5
  let wrapUpTime := jsOr channel.wrap_up_time 2
  let serviceLevel := jsOr channel.service_level_target (80/100)
  let targetAnswerTime := jsOr channel.service_level_threshold 20
  let shrinkage := jsOr channel.shrinkage_factor (25/100)
  let totalHandleTime := aht + wrapUpTime
  let workloadErlangs := volume * totalHandleTime / 60
  let adjustedWorkload := workloadErlangs / (1 - shrinkage)
  let baseAgents : ℤ := ⌈adjustedWorkload⌉
  let bufferFactor := calculateServiceLevelBuffer serviceLevel targetAnswerTime
  let requiredAgents : ℚ :=
    max (jsOr channel.min_staffing_level 1) ((⌈(baseAgents : ℚ) * bufferFactor⌉ : ℤ) : ℚ)
  let optimalAgents : ℚ :=
    ((⌈requiredAgents * (1 + jsOr channel.preferred_staffing_buffer (10/100))⌉ : ℤ) : ℚ)
  let minimumAgents := jsOr channel.min_staffing_level 1
  { required := requiredAgents, optimal := optimalAgents, minimum := minimumAgents,
    predictedServiceLevel := predictServiceLevel requiredAgents workloadErlangs targetAnswerTime,
    predictedWaitTime := predictAverageWaitTime requiredAgents workloadErlangs }

/-- Required-agents formula written from the specification text (spec 4.3:
`required = max(channelMinStaffing, ceil(baseAgents × buffer))`, with
`baseAgents = ceil(adjustedWorkload)` and
`buffer = 1 + (serviceLevelTarget − 0.5) × 0.5`). -/
def specRequiredAgents (pv : Prediction) (ch : Channel) : ℚ :=
  max (jsOr ch.min_staffing_level 1)
    ((⌈((⌈((pv.volume : ℚ) * (jsOr ch.average_handle_time 5 + jsOr ch.wrap_up_time 2) / 60 /
        (1 - jsOr ch.shrinkage_factor (25/100)))⌉ : ℤ) : ℚ) *
        (1 + (jsOr ch.service_level_target (80/100) - 1/2) * (1/2))⌉ : ℤ) : ℚ)

/-- Optimal-agents formula written from the specification text (spec 4.3:
`optimal = ceil(required × (1 + preferredStaffingBuffer))`). -/
def specOptimalAgents (pv : Prediction) (ch : Channel) : ℚ :=
  ((⌈specRequiredAgents pv ch * (1 + jsOr ch.preferred_staffing_buffer (10/100))⌉ : ℤ) : ℚ)

lemma jsOr_nonneg (x : Option ℚ) (d : ℚ) (hd : 0 ≤ d)
    (hx : ∀ v, x = some v → 0 ≤ v) : 0 ≤ jsOr x d := by
  match x with
  | none => exact hd
  | some v =>
    simp only [jsOr]
    split
    · exact hd
    · exact hx v rfl

/-- C2 (amended): for a non-negative predicted volume and channel
parameters with shrinkage factor in `[0,1)`, a non-negative minimum
staffing level and a non-negative preferred staffing buffer, the staffing
result satisfies `required ≥ minimum`, `optimal ≥ required` and
`required ≥ channelMinStaffing`, and the counts agree with the
specification formulas for `required`, `optimal` and `minimum`. -/
theorem calculateRequiredAgents_invariants (pv : Prediction) (ch : Channel)
    (hvol : 0 ≤ pv.volume)
    (hshr : ∀ s, ch.shrinkage_factor = some s → 0 ≤ s ∧ s < 1)
    (hmin : ∀ m, ch.min_staffing_level = some m → 0 ≤ m)
    (hpb : ∀ b, ch.preferred_staffing_buffer = some b → 0 ≤ b) :
    (calculateRequiredAgents pv ch).minimum ≤ (calculateRequiredAgents pv ch).required ∧
    (calculateRequiredAgents pv ch).required ≤ (calculateRequiredAgents pv ch).optimal ∧
    jsOr ch.min_staffing_level 1 ≤ (calculateRequiredAgents pv ch).required ∧
    (calculateRequiredAgents pv ch).required = specRequiredAgents pv ch ∧
    (calculateRequiredAgents pv ch).optimal = specOptimalAgents pv ch ∧
    (calculateRequiredAgents pv ch).minimum = jsOr ch.min_staffing_level 1 := by
  have hminN : 0 ≤ jsOr ch.min_staffing_level 1 :=
    jsOr_nonneg _ _ (by norm_num) hmin
  have hpbN : 0 ≤ jsOr ch.preferred_staffing_buffer (10/100) :=
    jsOr_nonneg _ _ (by norm_num) hpb
  have hreq : (calculateRequiredAgents pv ch).required =
      max (jsOr ch.min_staffing_level 1)
        ((⌈((⌈(pv.volume : ℚ) * (jsOr ch.average_handle_time 5 + jsOr ch.wrap_up_time 2) / 60 /
            (1 - jsOr ch.shrinkage_factor (25/100))⌉ : ℤ) : ℚ) *
            calculateServiceLevelBuffer (jsOr ch.service_level_target (80/100))
              (jsOr ch.service_level_threshold 20)⌉ : ℤ) : ℚ) := rfl
  have hreqN : 0 ≤ (calculateRequiredAgents pv ch).required := by
    rw [hreq]
    exact le_trans hminN (le_max_left _ _)
  refine ⟨le_max_left _ _, ?_, le_max_left _ _, rfl, rfl, rfl⟩
  calc (calculateRequiredAgents pv ch).required
      ≤ (calculateRequiredAgents pv ch).required *
        (1 + jsOr ch.preferred_staffing_buffer (10/100)) :=
        le_mul_of_one_le_right hreqN (by linarith)
    _ ≤ (calculateRequiredAgents pv ch).optimal := Int.le_ceil _

/-- Channel used in the C2 counterexample: shrinkage 0.25 ∈ [0,1), minimum
staffing level 4, preferred staffing buffer −0.5. -/
def chNegBuffer : Channel :=
  { operating_hours_start := 8, operating_hours_end := 17,
    average_handle_time := none, wrap_up_time := none,
    service_level_target := none, service_level_threshold := none,
    shrinkage_factor := some (25/100), min_staffing_level := some 4,
    preferred_staffing_buffer := some (-1/2) }

/-- C2 counterexample: with predicted volume 0 (non-negative) and shrinkage
0.25 ∈ [0,1) but a negative preferred staffing buffer −0.5, the result has
`required = 4` and `optimal = 2`, refuting `optimal ≥ required` for
arbitrary channel parameters. -/
theorem calculateRequiredAgents_neg_buffer_violates :
    ¬ ((calculateRequiredAgents ⟨0, 30/100, 0, 0⟩ chNegBuffer).required ≤
       (calculateRequiredAgents ⟨0, 30/100, 0, 0⟩ chNegBuffer).optimal) := by
  norm_num [calculateRequiredAgents, chNegBuffer, jsOr, calculateServiceLevelBuffer]

/-- Channel with every nullable service parameter absent, so every default
of the `||` idiom applies. -/
def chDefault : Channel :=
  { operating_hours_start := 8, operating_hours_end := 17,
    average_handle_time := none, wrap_up_time := none,
    service_level_target := none, service_level_threshold := none,
    shrinkage_factor := none, min_staffing_level := none,
    preferred_staffing_buffer := none }

/-- C2 witness: the staffing invariants applied to predicted volume 20 on
the all-default channel. -/
theorem calculateRequiredAgents_invariants_witness :
    0 ≤ (⟨20, 1/2, 10, 30⟩ : Prediction).volume ∧
    ((calculateRequiredAgents ⟨20, 1/2, 10, 30⟩ chDefault).minimum ≤
       (calculateRequiredAgents ⟨20, 1/2, 10, 30⟩ chDefault).required ∧
     (calculateRequiredAgents ⟨20, 1/2, 10, 30⟩ chDefault).required ≤
       (calculateRequiredAgents ⟨20, 1/2, 10, 30⟩ chDefault).optimal ∧
     jsOr chDefault.min_staffing_level 1 ≤
       (calculateRequiredAgents ⟨20, 1/2, 10, 30⟩ chDefault).required ∧
     (calculateRequiredAgents ⟨20, 1/2, 10, 30⟩ chDefault).required =
       specRequiredAgents ⟨20, 1/2, 10, 30⟩ chDefault ∧
     (calculateRequiredAgents ⟨20, 1/2, 10, 30⟩ chDefault).optimal =
       specOptimalAgents ⟨20, 1/2, 10, 30⟩ chDefault ∧
     (calculateRequiredAgents ⟨20, 1/2, 10, 30⟩ chDefault).minimum =
       jsOr chDefault.min_staffing_level 1) :=
  ⟨by norm_num,
   calculateRequiredAgents_invariants ⟨20, 1/2, 10, 30⟩ chDefault (by norm_num)
     (fun s h => Option.noConfusion h) (fun m h => Option.noConfusion h)
     (fun b h => Option.noConfusion h)⟩

/-- C8: with utilization `u = workload / agents` defined (positive agent
count) and a non-negative workload: if `u ≥ 1` the predicted service level
is exactly 0.1 and the predicted wait time exactly 300 seconds; otherwise
the service level is `clamp(1 − u, 0.1, 0.99)` and the wait time `u × 60`
seconds. -/
theorem predictServiceLevel_predictWaitTime_spec (agents workload targetSeconds : ℚ)
    (hA : 0 < agents) (hW : 0 ≤ workload) :
    (1 ≤ workload / agents →
      predictServiceLevel agents workload targetSeconds = 10/100 ∧
      predictAverageWaitTime agents workload = 300) ∧
    (workload / agents < 1 →
      predictServiceLevel agents workload targetSeconds =
        max (10/100) (min (99/100) (1 - workload / agents)) ∧
      predictAverageWaitTime agents workload = workload / agents * 60) := by
  constructor
  · intro hu
    constructor
    · simp only [predictServiceLevel]
      rw [if_pos hu]
    · simp only [predictAverageWaitTime]
      rw [if_pos hu]
  · intro hu
    have hu2 : ¬ (1 ≤ workload / agents) := not_le.mpr hu
    constructor
    · simp only [predictServiceLevel]
      rw [if_neg hu2]
    · simp only [predictAverageWaitTime]
      rw [if_neg hu2]
      exact max_eq_right (mul_nonneg (div_nonneg hW hA.le) (by norm_num))

/-- C8 witness: the exact overload boundary `u = 1` (2 Erlangs of workload
on 2 agents) yields service level 0.1 and wait time 300. -/
theorem predictServiceLevel_predictWaitTime_witness :
    (0 : ℚ) < 2 ∧ (0 : ℚ) ≤ 2 ∧ 1 ≤ (2 : ℚ) / 2 ∧
    (predictServiceLevel 2 2 20 = 10/100 ∧ predictAverageWaitTime 2 2 = 300) :=
  ⟨by norm_num, by norm_num, by norm_num,
   (predictServiceLevel_predictWaitTime_spec 2 2 20 (by norm_num) (by norm_num)).1
     (by norm_num)⟩


/-- A calendar date as consumed by the factor functions: `moment(date).day()`
(0 = Sunday), `.month()` (0 = January) and `.date()` (day of month). -/
structure CalDate where
  dayOfWeek : ℕ
  month : ℕ
  dayOfMonth : ℕ
  deriving DecidableEq

/-- The fixed holiday table of ForecastService.getHolidayFactor:
New Year's Day, Independence Day, Christmas as (0-indexed month, day). -/
def holidays : List (ℕ × ℕ) := [(0, 1), (6, 4), (11, 25)]

/-- ForecastService.getHolidayFactor: 0.3 on a listed holiday (the loop
returns at the first match), 1.0 otherwise. -/
def getHolidayFactor (momentDate : CalDate) : ℚ :=
  if holidays.any (fun h => momentDate.month == h.1 && momentDate.dayOfMonth == h.2)
  then 3/10 else 1

/-- ForecastService.getSeasonalFactors: product of the day-of-week,
hour-of-day and month multiplier tables, with the fixed 2% growth trend. -/
def getSeasonalFactors (date : CalDate) (hour : ℕ) : SeasonalFactors :=
  let dayOfWeekFactors : List ℚ := [6/10, 11/10, 1, 1, 12/10, 11/10, 7/10]
  let seasonal := dayOfWeekFactors.getD date.dayOfWeek 0
  let hourFactors : List ℚ :=
    [1/10, 1/10, 1/10, 1/10, 2/10, 3/10, 5/10, 7/10,
     1, 12/10, 11/10, 1, 9/10, 11/10, 12/10, 11/10,
     1, 8/10, 6/10, 4/10, 3/10, 2/10, 1/10, 1/10]
  let hourlyFactor := hourFactors.getD hour 0
  let monthlyFactors : List ℚ :=
    [11/10, 1, 1, 1, 9/10, 9/10, 8/10, 8/10, 1, 11/10, 12/10, 13/10]
  let monthlyFactor := monthlyFactors.getD date.month 0
  { seasonal := seasonal * hourlyFactor * monthlyFactor, trend := 102/100 }

/-- ForecastService.getExternalFactors: holiday factor from the table,
weather and special-event factors fixed at 1.0. -/
def getExternalFactors (date : CalDate) (hour : ℕ) : ExternalFactors :=
  { holidayFactor := getHolidayFactor date, weather := 1, specialEvent := 1 }

/-- C9 (amended): the external-factors function returns holiday = 0.3 for
exactly the three table dates — (Jan 1), (Jul 4) and (Dec 25, i.e. month 11
day 25 0-indexed) — and 1.0 for every other date; the weather and
special-event factors are always 1.0. -/
theorem getExternalFactors_spec (d : CalDate) (hour : ℕ) :
    (getExternalFactors d hour).holidayFactor =
      (if (d.month = 0 ∧ d.dayOfMonth = 1) ∨ (d.month = 6 ∧ d.dayOfMonth = 4) ∨
          (d.month = 11 ∧ d.dayOfMonth = 25) then (3 : ℚ)/10 else 1) ∧
    (getExternalFactors d hour).weather = 1 ∧
    (getExternalFactors d hour).specialEvent = 1 := by
  refine ⟨?_, rfl, rfl⟩
  show getHolidayFactor d = _
  unfold getHolidayFactor holidays
  simp only [List.any_cons, List.any_nil, Bool.or_false, Bool.or_eq_true,
    Bool.and_eq_true, beq_iff_eq]

/-- C9 counterexample: January 1st (month 0, day 1) is not (month 11,
day 25), yet the external-factors function returns holiday = 0.3, not 1.0. -/
theorem getExternalFactors_new_years_day :
    (getExternalFactors ⟨5, 0, 1⟩ 10).holidayFactor = 3/10 ∧
    ¬ ((3 : ℚ)/10 = 1) ∧ ¬ ((5 : ℕ) = 11 ∧ (0 : ℕ) = 25) :=
  ⟨rfl, by norm_num, by norm_num⟩

/-- A schedule record; the metrics function receives it but reads nothing
from it. -/
structure ScheduleRec where
  id : ℕ
  deriving DecidableEq

/-- A saved shift as read by the metrics reduction; `total_cost` is
nullable. -/
structure ShiftSaved where
  total_cost : Option ℚ
  deriving DecidableEq

/-- Result of ScheduleOptimizer.calculateScheduleMetrics. -/
structure ScheduleMetrics where
  serviceLevel : ℚ
  coverage : ℚ
  totalCost : ℚ
  efficiency : ℚ
  deriving DecidableEq

/-- ScheduleOptimizer.calculateScheduleMetrics: placeholder service level
and coverage constants, and the reduce-sum of `total_cost || 0`. -/
def calculateScheduleMetrics (schedule : ScheduleRec) (shifts : List ShiftSaved) :
    ScheduleMetrics :=
  let totalCost := shifts.foldl (fun sum shift => sum + jsOr shift.total_cost 0) 0
  { serviceLevel := 85/100, coverage := 90/100,
    totalCost := totalCost, efficiency := 88/100 }

lemma jsOr_zero (x : Option ℚ) : jsOr x 0 = x.getD 0 := by
  match x with
  | none => rfl
  | some v =>
    simp only [jsOr, Option.getD_some]
    by_cases h : v = 0
    · simp [h]
    · simp [h]

lemma foldl_add_jsOr (shifts : List ShiftSaved) (init : ℚ) :
    shifts.foldl (fun sum shift => sum + jsOr shift.total_cost 0) init =
      init + (shifts.map (fun s => s.total_cost.getD 0)).sum := by
  induction shifts generalizing init with
  | nil => simp
  | cons x xs ih =>
    simp only [List.foldl_cons, List.map_cons, List.sum_cons]
    rw [ih, jsOr_zero]
    ring

/-- C10: for every schedule and shift list, the computed metrics are the
constants serviceLevel = 0.85 and coverage = 0.90 (independent of every
input), and totalCost is the sum of the shifts' `total_cost` fields with a
missing cost counted as 0. -/
theorem calculateScheduleMetrics_spec (schedule : ScheduleRec)
    (shifts : List ShiftSaved) :
    (calculateScheduleMetrics schedule shifts).serviceLevel = 85/100 ∧
    (calculateScheduleMetrics schedule shifts).coverage = 90/100 ∧
    (calculateScheduleMetrics schedule shifts).totalCost =
      (shifts.map (fun s => s.total_cost.getD 0)).sum := by
  refine ⟨rfl, rfl, ?_⟩
  show shifts.foldl _ 0 = _
  rw [foldl_add_jsOr]
  ring


/-- The computed values persisted by `Forecast.create` for one hour of a
generateHourlyForecasts batch. -/
structure ForecastRec where
  forecast_hour : ℕ
  predicted_volume : ℤ
  confidence_level : ℚ
  min_volume : ℤ
  max_volume : ℤ
  required_agents : ℚ
  optimal_agents : ℚ
  minimum_agents : ℚ
  predicted_service_level : ℚ
  predicted_average_wait_time : ℚ
  seasonal_factor : ℚ
  trend_factor : ℚ
  deriving DecidableEq

/-- Failure modes of one generateHourlyForecasts call: the explicit
`Channel not found` throw, a storage write failure, and the rejection of a
duplicate (channel, skill, date, hour) record by the unique_forecast_period
index of models/Forecast.js. -/
inductive GenError where
  | channelNotFound
  | writeFailed
  | uniqueViolation
  deriving DecidableEq

/-- Environment of one generateHourlyForecasts call: the channel found by
`Channel.findByPk` (none = missing), the target date, the raw per-hour
historical read (which may fail), and whether the per-hour record write
succeeds. -/
structure GenEnv where
  channel : Option Channel
  date : CalDate
  histRead : ℕ → Except Unit (List Sample)
  writeOk : ℕ → Bool

/-- ForecastService.isOperatingHour. -/
def isOperatingHour (hour : ℕ) (channel : Channel) : Bool :=
  decide (channel.operating_hours_start ≤ hour) &&
  decide (hour < channel.operating_hours_end)

/-- ForecastService.getHistoricalData: any error of the underlying read is
caught and logged and the empty list is returned, so a failing read never
escapes. -/
def getHistoricalData (env : GenEnv) (hour : ℕ) : List Sample :=
  match env.histRead hour with
  | Except.ok l => l
  | Except.error _ => []

/-- The computed values of the record persisted for one hour of the batch
(the fields passed to `Forecast.create`). -/
def computeForecastRec (env : GenEnv) (ch : Channel) (hour : ℕ) : ForecastRec :=
  let historicalData := getHistoricalData env hour
  let seasonalFactors := getSeasonalFactors env.date hour
  let externalFactors := getExternalFactors env.date hour
  let predictedVolume := calculatePredictedVolume historicalData seasonalFactors externalFactors
  let requiredAgents := calculateRequiredAgents predictedVolume ch
  { forecast_hour := hour,
    predicted_volume := predictedVolume.volume,
    confidence_level := predictedVolume.confidence,
    min_volume := predictedVolume.minVolume,
    max_volume := predictedVolume.maxVolume,
    required_agents := requiredAgents.required,
    optimal_agents := requiredAgents.optimal,
    minimum_agents := requiredAgents.minimum,
    predicted_service_level := requiredAgents.predictedServiceLevel,
    predicted_average_wait_time := requiredAgents.predictedWaitTime,
    seasonal_factor := seasonalFactors.seasonal,
    trend_factor := seasonalFactors.trend }

/-- Models `Forecast.create` under the storage model: the write may fail, and the
unique_forecast_period index rejects a second record for the same period —
the store lists the hours already persisted for this channel/skill/date. -/
def createForecast (env : GenEnv) (store : List ℕ) (hour : ℕ) :
    Except GenError (List ℕ) :=
  if env.writeOk hour = false then Except.error GenError.writeFailed
  else if hour ∈ store then Except.error GenError.uniqueViolation
  else Except.ok (hour :: store)

/-- The hour loop of generateHourlyForecasts: non-operating hours are
skipped; each operating hour computes its record and persists it; a create
failure propagates out of the loop (the source has no per-hour catch around
the write, only around the historical read). -/
def genLoop (env : GenEnv) (ch : Channel) :
    List ℕ → List ℕ → Except GenError (List ForecastRec × List ℕ)
  | [], store => Except.ok ([], store)
  | h :: hs, store =>
    if isOperatingHour h ch then
      match createForecast env store h with
      | Except.error e => Except.error e
      | Except.ok store2 =>
        match genLoop env ch hs store2 with
        | Except.error e => Except.error e
        | Except.ok (recs, st) => Except.ok (computeForecastRec env ch h :: recs, st)
    else genLoop env ch hs store

/-- ForecastService.generateHourlyForecasts over the storage state: a
missing channel fails the whole call with the channel-not-found error,
otherwise hours 0–23 are processed in order. -/
def generateHourlyForecasts (env : GenEnv) (store : List ℕ) :
    Except GenError (List ForecastRec × List ℕ) :=
  match env.channel with
  | none => Except.error GenError.channelNotFound
  | some ch => genLoop env ch (List.range 24) store

lemma createForecast_ok_inversion (env : GenEnv) (store : List ℕ) (h : ℕ)
    (store2 : List ℕ) (hcr : createForecast env store h = Except.ok store2) :
    env.writeOk h = true ∧ h ∉ store ∧ store2 = h :: store := by
  by_cases hw : env.writeOk h = false
  · simp [createForecast, hw] at hcr
  · by_cases hmem : h ∈ store
    · simp [createForecast, hw, hmem] at hcr
    · simp only [createForecast, hw, if_false, hmem, ite_false] at hcr
      have hwt : env.writeOk h = true := by
        cases hb : env.writeOk h
        · exact absurd hb hw
        · rfl
      simp only [hwt, Bool.true_eq_false, if_false, if_neg hmem] at hcr
      injection hcr with hcr2
      exact ⟨hwt, hmem, hcr2.symm⟩

lemma genLoop_ok (env : GenEnv) (ch : Channel) (hs : List ℕ) : ∀ store : List ℕ,
    hs.Nodup →
    (∀ h ∈ hs, isOperatingHour h ch = true → env.writeOk h = true ∧ h ∉ store) →
    genLoop env ch hs store =
      Except.ok (((hs.filter (fun h => isOperatingHour h ch)).map (computeForecastRec env ch)),
        (hs.filter (fun h => isOperatingHour h ch)).reverse ++ store) := by
  induction hs with
  | nil => intro store _ _; simp [genLoop]
  | cons h hs ih =>
    intro store hnd hcond
    by_cases hop : isOperatingHour h ch = true
    · have hw := hcond h (List.mem_cons_self h hs) hop
      have hcreate : createForecast env store h = Except.ok (h :: store) := by
        simp [createForecast, hw.1, hw.2]
      have hrec : genLoop env ch hs (h :: store) =
          Except.ok (((hs.filter (fun x => isOperatingHour x ch)).map (computeForecastRec env ch)),
            (hs.filter (fun x => isOperatingHour x ch)).reverse ++ (h :: store)) := by
        apply ih (h :: store) (List.Nodup.of_cons hnd)
        intro h2 hh2 hop2
        refine ⟨(hcond h2 (List.mem_cons_of_mem h hh2) hop2).1, ?_⟩
        intro hmem
        rcases List.mem_cons.mp hmem with heq | hmem2
        · exact (List.nodup_cons.mp hnd).1 (heq ▸ hh2)
        · exact (hcond h2 (List.mem_cons_of_mem h hh2) hop2).2 hmem2
      simp only [genLoop, hop, if_true, hcreate, hrec, List.filter_cons, List.map_cons,
        List.reverse_cons, List.append_assoc, List.singleton_append]
    · have hopf : isOperatingHour h ch = false := by
        cases hb : isOperatingHour h ch
        · rfl
        · exact absurd hb hop
      have hrec := ih store (List.Nodup.of_cons hnd)
        (fun h2 hh2 hop2 => hcond h2 (List.mem_cons_of_mem h hh2) hop2)
      simp only [genLoop, hopf, Bool.false_eq_true, if_false, hrec, List.filter_cons]

lemma genLoop_ok_inversion (env : GenEnv) (ch : Channel) (hs : List ℕ) :
    ∀ store recs st, genLoop env ch hs store = Except.ok (recs, st) →
    recs = (hs.filter (fun h => isOperatingHour h ch)).map (computeForecastRec env ch) ∧
    (∀ h ∈ hs, isOperatingHour h ch = true → env.writeOk h = true) := by
  induction hs with
  | nil =>
    intro store recs st h
    simp only [genLoop] at h
    injection h with h2
    injection h2 with hrecs hst
    simp [← hrecs]
  | cons h hs ih =>
    intro store recs st hok
    by_cases hop : isOperatingHour h ch = true
    · simp only [genLoop, hop, if_true] at hok
      rcases hcr : createForecast env store h with e | store2
      · simp only [hcr] at hok
        exact absurd hok (by simp)
      · simp only [hcr] at hok
        rcases hrec : genLoop env ch hs store2 with e | ⟨recs2, st2⟩
        · simp only [hrec] at hok
          exact absurd hok (by simp)
        · simp only [hrec] at hok
          injection hok with hok2
          injection hok2 with hrecs hst
          obtain ⟨hwt, _, _⟩ := createForecast_ok_inversion env store h store2 hcr
          obtain ⟨hrecs2, hall⟩ := ih store2 recs2 st2 hrec
          constructor
          · rw [← hrecs, hrecs2, List.filter_cons, if_pos hop, List.map_cons]
          · intro h2 hh2 hop2
            rcases List.mem_cons.mp hh2 with heq | hmem2
            · exact heq ▸ hwt
            · exact hall h2 hmem2 hop2
    · have hopf : isOperatingHour h ch = false := by
        cases hb : isOperatingHour h ch
        · rfl
        · exact absurd hb hop
      simp only [genLoop, hopf, Bool.false_eq_true, if_false] at hok
      obtain ⟨hrecs, hall⟩ := ih store recs st hok
      constructor
      · rw [hrecs, List.filter_cons, if_neg (by simp [hopf])]
      · intro h2 hh2 hop2
        rcases List.mem_cons.mp hh2 with heq | hmem2
        · exact absurd (heq ▸ hop2) (by simp [hopf])
        · exact hall h2 hmem2 hop2

lemma genLoop_store_subset (env : GenEnv) (ch : Channel) (hs : List ℕ) :
    ∀ store recs st, genLoop env ch hs store = Except.ok (recs, st) → store ⊆ st := by
  induction hs with
  | nil =>
    intro store recs st hok
    simp only [genLoop] at hok
    injection hok with h2
    injection h2 with hrecs hst
    exact hst ▸ List.Subset.refl store
  | cons h hs ih =>
    intro store recs st hok
    by_cases hop : isOperatingHour h ch = true
    · simp only [genLoop, hop, if_true] at hok
      rcases hcr : createForecast env store h with e | store2
      · simp only [hcr] at hok
        exact absurd hok (by simp)
      · simp only [hcr] at hok
        rcases hrec : genLoop env ch hs store2 with e | ⟨recs2, st2⟩
        · simp only [hrec] at hok
          exact absurd hok (by simp)
        · simp only [hrec] at hok
          injection hok with hok2
          injection hok2 with hrecs hst
          obtain ⟨_, _, hstore2⟩ := createForecast_ok_inversion env store h store2 hcr
          have h1 : store ⊆ store2 := by
            rw [hstore2]
            exact List.subset_cons_self h store
          exact hst ▸ h1.trans (ih store2 recs2 st2 hrec)
    · have hopf : isOperatingHour h ch = false := by
        cases hb : isOperatingHour h ch
        · rfl
        · exact absurd hb hop
      simp only [genLoop, hopf, Bool.false_eq_true, if_false] at hok
      exact ih store recs st hok

lemma genLoop_store_inversion (env : GenEnv) (ch : Channel) (hs : List ℕ) :
    ∀ store recs st, genLoop env ch hs store = Except.ok (recs, st) →
    ∀ h ∈ hs, isOperatingHour h ch = true → h ∈ st := by
  induction hs with
  | nil =>
    intro store recs st hok h hh
    cases hh
  | cons h hs ih =>
    intro store recs st hok h2 hh2 hop2
    by_cases hop : isOperatingHour h ch = true
    · simp only [genLoop, hop, if_true] at hok
      rcases hcr : createForecast env store h with e | store2
      · simp only [hcr] at hok
        exact absurd hok (by simp)
      · simp only [hcr] at hok
        rcases hrec : genLoop env ch hs store2 with e | ⟨recs2, st2⟩
        · simp only [hrec] at hok
          exact absurd hok (by simp)
        · simp only [hrec] at hok
          injection hok with hok2
          injection hok2 with hrecs hst
          obtain ⟨_, _, hstore2⟩ := createForecast_ok_inversion env store h store2 hcr
          rcases List.mem_cons.mp hh2 with heq | hmem2
          · subst heq
            have hins : h2 ∈ store2 := by
              rw [hstore2]
              exact List.mem_cons_self _ _
            exact hst ▸ genLoop_store_subset env ch hs store2 recs2 st2 hrec hins
          · exact hst ▸ ih store2 recs2 st2 hrec h2 hmem2 hop2
    · have hopf : isOperatingHour h ch = false := by
        cases hb : isOperatingHour h ch
        · rfl
        · exact absurd hb hop
      simp only [genLoop, hopf, Bool.false_eq_true, if_false] at hok
      rcases List.mem_cons.mp hh2 with heq | hmem2
      · exact absurd (heq ▸ hop2) (by simp [hopf])
      · exact ih store recs st hok h2 hmem2 hop2

lemma createForecast_ne_channelNotFound (env : GenEnv) (store : List ℕ) (h : ℕ) :
    createForecast env store h ≠ Except.error GenError.channelNotFound := by
  unfold createForecast
  split
  · intro hc
    injection hc with he
    exact GenError.noConfusion he
  · split
    · intro hc
      injection hc with he
      exact GenError.noConfusion he
    · intro hc
      exact Except.noConfusion hc

lemma genLoop_ne_channelNotFound (env : GenEnv) (ch : Channel) (hs : List ℕ) :
    ∀ store, genLoop env ch hs store ≠ Except.error GenError.channelNotFound := by
  induction hs with
  | nil =>
    intro store hcontra
    simp [genLoop] at hcontra
  | cons h hs ih =>
    intro store hcontra
    by_cases hop : isOperatingHour h ch = true
    · simp only [genLoop, hop, if_true] at hcontra
      rcases hcr : createForecast env store h with e | store2
      · simp only [hcr] at hcontra
        injection hcontra with he
        subst he
        exact createForecast_ne_channelNotFound env store h hcr
      · simp only [hcr] at hcontra
        rcases hrec : genLoop env ch hs store2 with e | ⟨recs2, st2⟩
        · simp only [hrec] at hcontra
          injection hcontra with he
          subst he
          exact ih store2 hrec
        · simp only [hrec] at hcontra
          exact Except.noConfusion hcontra
    · have hopf : isOperatingHour h ch = false := by
        cases hb : isOperatingHour h ch
        · rfl
        · exact absurd hb hop
      simp only [genLoop, hopf, Bool.false_eq_true, if_false] at hcontra
      exact ih store hcontra

lemma genLoop_unique_violation (env : GenEnv) (ch : Channel) (hs : List ℕ) :
    ∀ store,
    (∀ h ∈ hs, isOperatingHour h ch = true → env.writeOk h = true ∧ h ∈ store) →
    (∃ h0 ∈ hs, isOperatingHour h0 ch = true) →
    genLoop env ch hs store = Except.error GenError.uniqueViolation := by
  induction hs with
  | nil =>
    intro store _ hex
    rcases hex with ⟨h0, hh0, _⟩
    cases hh0
  | cons h hs ih =>
    intro store hcond hex
    by_cases hop : isOperatingHour h ch = true
    · have hw := hcond h (List.mem_cons_self h hs) hop
      have hcr : createForecast env store h = Except.error GenError.uniqueViolation := by
        simp [createForecast, hw.1, hw.2]
      simp only [genLoop, hop, if_true, hcr]
    · have hopf : isOperatingHour h ch = false := by
        cases hb : isOperatingHour h ch
        · rfl
        · exact absurd hb hop
      rcases hex with ⟨h2, hh2, hop2⟩
      have hmem2 : h2 ∈ hs := by
        rcases List.mem_cons.mp hh2 with heq | hm
        · exact absurd (heq ▸ hop2) (by simp [hopf])
        · exact hm
      simp only [genLoop, hopf, Bool.false_eq_true, if_false]
      exact ih store (fun x hx hopx => hcond x (List.mem_cons_of_mem h hx) hopx)
        ⟨h2, hmem2, hop2⟩

/-- C4 (amended): generateHourlyForecasts fails with the channel-not-found
error exactly when the channel does not exist.  A failing historical-data
read never aborts the batch and never skips the hour (the read is caught
inside getHistoricalData and the hour's record is produced from the
empty-history fallback), but a failing per-hour record write aborts the
whole batch: when the channel exists, every operating hour's write
succeeds and no record for the period exists yet, the call returns exactly
one record per operating hour, whatever the per-hour historical reads do. -/
theorem generateHourlyForecasts_error_policy (env : GenEnv) (store : List ℕ) :
    (generateHourlyForecasts env store = Except.error GenError.channelNotFound ↔
      env.channel = none) ∧
    (∀ ch, env.channel = some ch →
      (∀ h ∈ List.range 24, isOperatingHour h ch = true →
        env.writeOk h = true ∧ h ∉ store) →
      generateHourlyForecasts env store =
        Except.ok ((((List.range 24).filter (fun h => isOperatingHour h ch)).map
            (computeForecastRec env ch)),
          ((List.range 24).filter (fun h => isOperatingHour h ch)).reverse ++ store)) := by
  constructor
  · constructor
    · intro herr
      rcases hch : env.channel with _ | ch
      · rfl
      · simp only [generateHourlyForecasts, hch] at herr
        exact absurd herr (genLoop_ne_channelNotFound env ch (List.range 24) store)
    · intro hnone
      simp [generateHourlyForecasts, hnone]
  · intro ch hch hcond
    simp only [generateHourlyForecasts, hch]
    exact genLoop_ok env ch (List.range 24) store (List.nodup_range 24) hcond

/-- Channel operating from hour 9 (inclusive) to hour 11 (exclusive). -/
def chOp911 : Channel :=
  { operating_hours_start := 9, operating_hours_end := 11,
    average_handle_time := none, wrap_up_time := none,
    service_level_target := none, service_level_threshold := none,
    shrinkage_factor := none, min_staffing_level := none,
    preferred_staffing_buffer := none }

/-- Environment in which the write of hour 9 (the first operating hour)
fails while historical reads all succeed. -/
def envWriteFail : GenEnv :=
  { channel := some chOp911, date := ⟨1, 2, 3⟩,
    histRead := fun _ => Except.ok [⟨12⟩, ⟨8⟩],
    writeOk := fun h => ! (h == 9) }

/-- C4 counterexample: a failure confined to the single hour 9 (its record
write fails) aborts the whole batch — the call returns the write-failure
error and produces no record for the remaining operating hour 10, refuting
the claim that per-hour failures never abort the batch. -/
theorem generateHourlyForecasts_write_failure_aborts :
    generateHourlyForecasts envWriteFail [] = Except.error GenError.writeFailed := by
  rfl

/-- Environment in which every historical read fails and every write
succeeds. -/
def envReadFail : GenEnv :=
  { channel := some chOp911, date := ⟨1, 2, 3⟩,
    histRead := fun _ => Except.error (),
    writeOk := fun _ => true }

/-- C4 witness: the amended policy applied to a concrete environment whose
historical reads all fail — the batch still succeeds with one record per
operating hour. -/
theorem generateHourlyForecasts_error_policy_witness :
    generateHourlyForecasts envReadFail [] =
      Except.ok ((((List.range 24).filter (fun h => isOperatingHour h chOp911)).map
          (computeForecastRec envReadFail chOp911)),
        ((List.range 24).filter (fun h => isOperatingHour h chOp911)).reverse ++ []) :=
  (generateHourlyForecasts_error_policy envReadFail []).2 chOp911 rfl (by decide)

/-- Environment for the idempotence claim: channel present, all reads and
writes succeed. -/
def envIdem : GenEnv :=
  { channel := some chOp911, date := ⟨1, 2, 3⟩,
    histRead := fun _ => Except.ok [⟨12⟩, ⟨8⟩],
    writeOk := fun _ => true }

/-- The result of calling generateHourlyForecasts a second time on the
storage state left behind by a first call (the unique_forecast_period
index of models/Forecast.js now holds the first call's records). -/
def secondCallResult : Except GenError (List ForecastRec × List ℕ) :=
  match generateHourlyForecasts envIdem [] with
  | Except.ok (_, st) => generateHourlyForecasts envIdem st
  | Except.error e => Except.error e

/-- C5 counterexample: the first call succeeds, but the second call with
unchanged historical data fails with a uniqueness violation instead of
producing forecasts with identical computed values — the source uses
`Forecast.create`, which the unique index rejects for an existing period. -/
theorem generateHourlyForecasts_second_call_fails :
    (generateHourlyForecasts envIdem []).isOk = true ∧
    secondCallResult = Except.error GenError.uniqueViolation :=
  ⟨rfl, rfl⟩

/-- C5 (amended): the computed values are deterministic — every successful
call with the same channel, date and historical source yields the same
computed records, whatever the prior storage state — but the operation is
not idempotent under the unique_forecast_period constraint: after a
successful first call on an empty store, a second call fails with a
uniqueness-violation error instead of reproducing the forecasts. -/
theorem generateHourlyForecasts_deterministic_not_idempotent (env : GenEnv)
    (ch : Channel) (recs : List ForecastRec) (st1 : List ℕ)
    (hch : env.channel = some ch)
    (h1 : generateHourlyForecasts env [] = Except.ok (recs, st1))
    (hop : ∃ h0 ∈ List.range 24, isOperatingHour h0 ch = true) :
    (∀ store2 recs2 st2,
      generateHourlyForecasts env store2 = Except.ok (recs2, st2) → recs2 = recs) ∧
    generateHourlyForecasts env st1 = Except.error GenError.uniqueViolation := by
  simp only [generateHourlyForecasts, hch] at h1 ⊢
  obtain ⟨hrecs, hwall⟩ := genLoop_ok_inversion env ch (List.range 24) [] recs st1 h1
  constructor
  · intro store2 recs2 st2 hok2
    obtain ⟨hrecs2, _⟩ := genLoop_ok_inversion env ch (List.range 24) store2 recs2 st2 hok2
    rw [hrecs2, hrecs]
  · apply genLoop_unique_violation
    · intro h hh hoph
      exact ⟨hwall h hh hoph,
        genLoop_store_inversion env ch (List.range 24) [] recs st1 h1 h hh hoph⟩
    · exact hop

/-- C5 witness: the determinism/non-idempotence theorem applied to the
concrete environment — the second call on the store written by the first
call returns the uniqueness-violation error. -/
theorem generateHourlyForecasts_determinism_witness :
    generateHourlyForecasts envIdem
        (((List.range 24).filter (fun h => isOperatingHour h chOp911)).reverse ++ []) =
      Except.error GenError.uniqueViolation :=
  (generateHourlyForecasts_deterministic_not_idempotent envIdem chOp911
    (((List.range 24).filter (fun h => isOperatingHour h chOp911)).map
      (computeForecastRec envIdem chOp911))
    (((List.range 24).filter (fun h => isOperatingHour h chOp911)).reverse ++ [])
    rfl
    (by
      simp only [generateHourlyForecasts, show envIdem.channel = some chOp911 from rfl]
      exact genLoop_ok envIdem chOp911 (List.range 24) [] (List.nodup_range 24) (by decide))
    ⟨9, by decide⟩).2


/-- The schedule constraint set after generateOptimizedSchedule merges the
defaults of getDefaultConstraints with the caller's overrides, so every
field is present; durations are in minutes, the rest in hours/days. -/
structure Constraints where
  max_consecutive_days : ℚ
  min_days_off_per_week : ℚ
  max_hours_per_day : ℚ
  max_hours_per_week : ℚ
  min_break_duration : ℕ
  lunch_break_duration : ℕ
  min_time_between_shifts : ℚ
  deriving DecidableEq

/-- ScheduleOptimizer.getDefaultConstraints. -/
def getDefaultConstraints : Constraints :=
  { max_consecutive_days := 5, min_days_off_per_week := 2, max_hours_per_day := 8,
    max_hours_per_week := 40, min_break_duration := 30, lunch_break_duration := 60,
    min_time_between_shifts := 8 }

/-- ScheduleOptimizer.calculateShiftHours: fractional hours between two
same-day times, given here in minutes since midnight (the code parses
`HH:mm` strings into moments on the same date and takes the difference in
hours). -/
def calculateShiftHours (startTime endTime : ℕ) : ℚ :=
  ((endTime : ℚ) - startTime) / 60

/-- ScheduleOptimizer.calculateTimeBetween: hours from an end time to the
next start time, with the start placed on the following day (the code sets
the end on 2000-01-01 and the start on 2000-01-02). -/
def calculateTimeBetween (endTime startTime : ℕ) : ℚ :=
  ((1440 + startTime : ℚ) - endTime) / 60

/-- One generated break or lunch window; times are minutes since midnight
reduced modulo one day exactly as the `HH:mm` formatting of the code wraps
them, durations in minutes. -/
structure BreakRec where
  start_time : ℕ
  end_time : ℕ
  duration : ℕ
  deriving DecidableEq

/-- ScheduleOptimizer.generateBreaks: one break per completed 4-hour block,
placed `i × 4` hours after the shift start for `i = 1 .. floor(hours/4)`,
each of `min_break_duration || 15` minutes. -/
def generateBreaks (startTime endTime : ℕ) (constraints : Constraints) :
    List BreakRec :=
  let shiftHours := calculateShiftHours startTime endTime
  if 4 ≤ shiftHours then
    let breakDuration :=
      if constraints.min_break_duration = 0 then 15 else constraints.min_break_duration
    let numBreaks := (⌊shiftHours / 4⌋).toNat
    (List.range numBreaks).map (fun i =>
      let breakTime := (startTime + (i + 1) * 4 * 60) % 1440
      { start_time := breakTime,
        end_time := (breakTime + breakDuration) % 1440,
        duration := breakDuration })
  else []

/-- ScheduleOptimizer.generateLunchBreak: for shifts of at least 6 hours, a
lunch of `lunch_break_duration || 60` minutes starting at the shift
midpoint. -/
def generateLunchBreak (startTime endTime : ℕ) (constraints : Constraints) :
    Option BreakRec :=
  let shiftHours := calculateShiftHours startTime endTime
  if 6 ≤ shiftHours then
    let lunchDuration :=
      if constraints.lunch_break_duration = 0 then 60 else constraints.lunch_break_duration
    let midShift := (startTime + (endTime - startTime) / 2) % 1440
    some { start_time := midShift,
           end_time := (midShift + lunchDuration) % 1440,
           duration := lunchDuration }
  else none

/-- C6 evidence: for the standard 8-hour shift 08:00–16:00 (minutes 480 to
960) under the default constraint set, generateBreaks yields breaks at
12:00–12:30 and at 16:00–16:30 — the second window starts exactly at the
shift end and extends past it, so it does not lie strictly inside the
shift, violating the specified invariant; the lunch break is generated at
12:00–13:00 (strictly inside). -/
theorem generateBreaks_break_at_shift_end :
    generateBreaks 480 960 getDefaultConstraints =
      [{ start_time := 720, end_time := 750, duration := 30 },
       { start_time := 960, end_time := 990, duration := 30 }] ∧
    ¬ ((960 : ℕ) < 960) ∧
    generateLunchBreak 480 960 getDefaultConstraints =
      some { start_time := 720, end_time := 780, duration := 60 } := by
  have hsh : calculateShiftHours 480 960 = 8 := by
    norm_num [calculateShiftHours]
  have hfl : (⌊(8 : ℚ) / 4⌋).toNat = 2 := by
    norm_num
    rfl
  refine ⟨?_, by norm_num, ?_⟩
  · simp only [generateBreaks, hsh, hfl]
    norm_num [List.range_succ, getDefaultConstraints]
  · simp only [generateLunchBreak, hsh]
    norm_num [getDefaultConstraints]


/-- An agent as read by the assignment engine: identity plus the
performance and flexibility attributes consumed by the suitability sort. -/
structure Agent where
  id : ℕ
  customer_satisfaction_score : Option ℚ
  first_call_resolution_rate : Option ℚ
  can_work_weekends : Bool
  overtime_eligible : Bool
  deriving DecidableEq

/-- The suitability score computed inside
ScheduleOptimizer.sortAgentsBySuitability. -/
def suitabilityScore (a : Agent) : ℚ :=
  jsOr a.customer_satisfaction_score 3 + jsOr a.first_call_resolution_rate (1/2) +
  (if a.can_work_weekends then 2/10 else 0) +
  (if a.overtime_eligible then 1/10 else 0)

/-- ScheduleOptimizer.sortAgentsBySuitability: stable sort by score
descending. -/
def sortAgentsBySuitability (agents : List Agent) : List Agent :=
  agents.mergeSort (fun a b => decide (suitabilityScore b ≤ suitabilityScore a))

/-- A shift template (pattern) with its window in minutes since midnight
(the code stores `HH:mm` strings). -/
structure Pattern where
  startMin : ℕ
  endMin : ℕ
  deriving DecidableEq

/-- The per-agent workload tracking entry of assignAgentsToShifts. -/
structure Workload where
  hoursAssigned : ℚ
  lastShiftEnd : Option ℕ
  deriving DecidableEq

/-- The agent-workload map, keyed by agent id. -/
def initialWorkload : ℕ → Workload :=
  fun _ => { hoursAssigned := 0, lastShiftEnd := none }

/-- Pointwise update of the workload map at one agent id. -/
def updateWorkload (w : ℕ → Workload) (i : ℕ) (nw : Workload) : ℕ → Workload :=
  fun j => if j = i then nw else w j

/-- ScheduleOptimizer.findSuitableAgents: keeps the agents whose projected
hours stay within max_hours_per_week and whose rest gap since their last
assigned shift end is at least min_time_between_shifts. -/
def findSuitableAgents (agents : List Agent) (pattern : Pattern)
    (agentWorkload : ℕ → Workload) (constraints : Constraints) : List Agent :=
  agents.filter (fun agent =>
    let workload := agentWorkload agent.id
    let shiftHours := calculateShiftHours pattern.startMin pattern.endMin
    if constraints.max_hours_per_week < workload.hoursAssigned + shiftHours then false
    else
      match workload.lastShiftEnd with
      | some lastEnd =>
        if calculateTimeBetween lastEnd pattern.startMin < constraints.min_time_between_shifts
        then false else true
      | none => true)

/-- One produced assignment; the placeholder channel/skill fields of the
source (`null`, `[]`, volume 0) are constants and are omitted. -/
structure Assignment where
  agentId : ℕ
  startMin : ℕ
  endMin : ℕ
  overtime : Bool
  deriving DecidableEq

/-- The template loop of ScheduleOptimizer.assignAgentsToShifts: for each
pattern in order, pick the first suitable agent (if any) and update that
agent's workload; a template with no eligible agent produces nothing. -/
def assignLoop (constraints : Constraints) (sortedAgents : List Agent) :
    List Pattern → (ℕ → Workload) → List Assignment
  | [], _ => []
  | pattern :: ps, agentWorkload =>
    match findSuitableAgents sortedAgents pattern agentWorkload constraints with
    | [] => assignLoop constraints sortedAgents ps agentWorkload
    | selectedAgent :: _ =>
      let workload := agentWorkload selectedAgent.id
      let shiftHours := calculateShiftHours pattern.startMin pattern.endMin
      { agentId := selectedAgent.id, startMin := pattern.startMin,
        endMin := pattern.endMin, overtime := decide (8 < shiftHours) } ::
      assignLoop constraints sortedAgents ps
        (updateWorkload agentWorkload selectedAgent.id
          { hoursAssigned := workload.hoursAssigned + shiftHours,
            lastShiftEnd := some pattern.endMin })

/-- ScheduleOptimizer.assignAgentsToShifts. -/
def assignAgentsToShifts (shiftPatterns : List Pattern)
    (availableAgents : List Agent) (constraints : Constraints) : List Assignment :=
  assignLoop constraints (sortAgentsBySuitability availableAgents) shiftPatterns
    initialWorkload

/-- Approval status of a time-off request. -/
inductive TimeOffStatus where
  | approved
  | pending_approval
  | rejected
  deriving DecidableEq

/-- A time-off request; dates are day ordinals (the code compares
`YYYY-MM-DD` strings, whose lexicographic order is date order). -/
structure TimeOffReq where
  agent_id : ℕ
  start_date : ℕ
  end_date : ℕ
  status : TimeOffStatus
  deriving DecidableEq

/-- The caller-side date filter of generateOptimizedSchedule: only the
requests whose range covers the target date reach generateDailyShifts. -/
def filterTimeOffForDate (timeOffRequests : List TimeOffReq) (date : ℕ) :
    List TimeOffReq :=
  timeOffRequests.filter (fun t =>
    decide (t.start_date ≤ date) && decide (date ≤ t.end_date))

/-- The agent pre-filter of ScheduleOptimizer.generateDailyShifts: agents
with an approved request among the day's time-off requests are excluded. -/
def availableAgentsForDay (agents : List Agent)
    (timeOffRequests : List TimeOffReq) : List Agent :=
  let unavailable :=
    (timeOffRequests.filter (fun t => decide (t.status = TimeOffStatus.approved))).map
      (fun t => t.agent_id)
  agents.filter (fun agent => decide (agent.id ∉ unavailable))

/-- The assignment pipeline of generateDailyShifts: the day's agent pool
(after the time-off exclusion) fed into assignAgentsToShifts. -/
def generateDailyAssignments (date : ℕ) (agents : List Agent)
    (timeOffRequests : List TimeOffReq) (shiftPatterns : List Pattern)
    (constraints : Constraints) : List Assignment :=
  assignAgentsToShifts shiftPatterns
    (availableAgentsForDay agents (filterTimeOffForDate timeOffRequests date))
    constraints

/-- Total shift hours of a list of assignments. -/
def totalAssignedHours (assignments : List Assignment) : ℚ :=
  (assignments.map (fun a => calculateShiftHours a.startMin a.endMin)).sum

/-- Checks that, walking a list of one agent's assignments in order, each
start is at least min_time_between_shifts after the previous end (with
`prev` the end of the assignment before the list, if any), gaps measured by
calculateTimeBetween. -/
def restOK (constraints : Constraints) : Option ℕ → List Assignment → Bool
  | _, [] => true
  | prev, x :: xs =>
    (match prev with
     | some lastEnd =>
       ! decide (calculateTimeBetween lastEnd x.startMin < constraints.min_time_between_shifts)
     | none => true) && restOK constraints (some x.endMin) xs

lemma findSuitableAgents_head (sorted : List Agent) (p : Pattern) (w : ℕ → Workload)
    (c : Constraints) (sel : Agent) (rest : List Agent)
    (hfind : findSuitableAgents sorted p w c = sel :: rest) :
    sel ∈ sorted ∧
    (w sel.id).hoursAssigned + calculateShiftHours p.startMin p.endMin ≤
      c.max_hours_per_week ∧
    (∀ lastEnd, (w sel.id).lastShiftEnd = some lastEnd →
      c.min_time_between_shifts ≤ calculateTimeBetween lastEnd p.startMin) := by
  have hmem : sel ∈ findSuitableAgents sorted p w c := by
    rw [hfind]
    exact List.mem_cons_self sel rest
  rw [findSuitableAgents] at hmem
  have hmem2 := List.mem_of_mem_filter hmem
  have hpred := List.of_mem_filter hmem
  simp only [] at hpred
  refine ⟨hmem2, ?_, ?_⟩
  · by_contra hc
    rw [if_pos (not_le.mp hc)] at hpred
    exact absurd hpred (by simp)
  · intro lastEnd hle
    by_cases h1 : c.max_hours_per_week <
        (w sel.id).hoursAssigned + calculateShiftHours p.startMin p.endMin
    · rw [if_pos h1] at hpred
      exact absurd hpred (by simp)
    · rw [if_neg h1] at hpred
      simp only [hle] at hpred
      by_cases h2 : calculateTimeBetween lastEnd p.startMin < c.min_time_between_shifts
      · rw [if_pos h2] at hpred
        exact absurd hpred (by simp)
      · exact not_lt.mp h2

lemma assignLoop_mem (c : Constraints) (sorted : List Agent) :
    ∀ ps w a, a ∈ assignLoop c sorted ps w → ∃ ag ∈ sorted, ag.id = a.agentId := by
  intro ps
  induction ps with
  | nil =>
    intro w a ha
    simp [assignLoop] at ha
  | cons p ps ih =>
    intro w a ha
    rcases hfind : findSuitableAgents sorted p w c with _ | ⟨sel, rest⟩
    · simp only [assignLoop, hfind] at ha
      exact ih _ a ha
    · simp only [assignLoop, hfind] at ha
      rcases List.mem_cons.mp ha with heq | hmem
      · subst heq
        exact ⟨sel, (findSuitableAgents_head sorted p w c sel rest hfind).1, rfl⟩
      · exact ih _ a hmem

lemma assignLoop_length (c : Constraints) (sorted : List Agent) :
    ∀ ps w, (assignLoop c sorted ps w).length ≤ ps.length := by
  intro ps
  induction ps with
  | nil =>
    intro w
    simp [assignLoop]
  | cons p ps ih =>
    intro w
    rcases hfind : findSuitableAgents sorted p w c with _ | ⟨sel, rest⟩
    · simp only [assignLoop, hfind]
      exact le_trans (ih w) (Nat.le_succ _)
    · simp only [assignLoop, hfind, List.length_cons]
      exact Nat.succ_le_succ (ih _)

lemma assignLoop_hours (c : Constraints) (sorted : List Agent) (i : ℕ) :
    ∀ ps w,
      ((assignLoop c sorted ps w).filter (fun a => a.agentId == i) = []) ∨
      ((w i).hoursAssigned +
        totalAssignedHours ((assignLoop c sorted ps w).filter (fun a => a.agentId == i)) ≤
        c.max_hours_per_week) := by
  intro ps
  induction ps with
  | nil =>
    intro w
    left
    simp [assignLoop]
  | cons p ps ih =>
    intro w
    rcases hfind : findSuitableAgents sorted p w c with _ | ⟨sel, rest⟩
    · simp only [assignLoop, hfind]
      exact ih w
    · obtain ⟨-, hhours, -⟩ := findSuitableAgents_head sorted p w c sel rest hfind
      by_cases hsel : sel.id = i
      · right
        subst hsel
        simp only [assignLoop, hfind, List.filter_cons, show
          (({ agentId := sel.id, startMin := p.startMin, endMin := p.endMin,
              overtime := decide (8 < calculateShiftHours p.startMin p.endMin) } :
            Assignment).agentId == sel.id) = true by simp, if_true]
        rcases ih (updateWorkload w sel.id
            { hoursAssigned := (w sel.id).hoursAssigned +
                calculateShiftHours p.startMin p.endMin,
              lastShiftEnd := some p.endMin }) with hemp | hle
        · rw [hemp]
          simp only [totalAssignedHours, List.map_cons, List.map_nil, List.sum_cons,
            List.sum_nil]
          linarith [hhours]
        · have hupd : ((updateWorkload w sel.id
              { hoursAssigned := (w sel.id).hoursAssigned +
                  calculateShiftHours p.startMin p.endMin,
                lastShiftEnd := some p.endMin }) sel.id).hoursAssigned =
              (w sel.id).hoursAssigned + calculateShiftHours p.startMin p.endMin := by
            simp [updateWorkload]
          rw [hupd] at hle
          simp only [totalAssignedHours, List.map_cons, List.sum_cons] at hle ⊢
          linarith [hle]
      · simp only [assignLoop, hfind, List.filter_cons, show
          (({ agentId := sel.id, startMin := p.startMin, endMin := p.endMin,
              overtime := decide (8 < calculateShiftHours p.startMin p.endMin) } :
            Assignment).agentId == i) = false by simp [hsel], if_false]
        have hupd : (updateWorkload w sel.id
            { hoursAssigned := (w sel.id).hoursAssigned +
                calculateShiftHours p.startMin p.endMin,
              lastShiftEnd := some p.endMin }) i = w i := by
          simp [updateWorkload, show ¬ (i = sel.id) from fun h => hsel h.symm]
        rcases ih (updateWorkload w sel.id
            { hoursAssigned := (w sel.id).hoursAssigned +
                calculateShiftHours p.startMin p.endMin,
              lastShiftEnd := some p.endMin }) with hemp | hle
        · left
          exact hemp
        · right
          rw [hupd] at hle
          exact hle

lemma assignLoop_rest (c : Constraints) (sorted : List Agent) (i : ℕ) :
    ∀ ps w,
      restOK c ((w i).lastShiftEnd)
        ((assignLoop c sorted ps w).filter (fun a => a.agentId == i)) = true := by
  intro ps
  induction ps with
  | nil =>
    intro w
    simp [assignLoop, restOK]
  | cons p ps ih =>
    intro w
    rcases hfind : findSuitableAgents sorted p w c with _ | ⟨sel, rest⟩
    · simp only [assignLoop, hfind]
      exact ih w
    · obtain ⟨-, -, hgap⟩ := findSuitableAgents_head sorted p w c sel rest hfind
      by_cases hsel : sel.id = i
      · subst hsel
        simp only [assignLoop, hfind, List.filter_cons, show
          (({ agentId := sel.id, startMin := p.startMin, endMin := p.endMin,
              overtime := decide (8 < calculateShiftHours p.startMin p.endMin) } :
            Assignment).agentId == sel.id) = true by simp, if_true, restOK]
        rw [Bool.and_eq_true]
        constructor
        · rcases hprev : (w sel.id).lastShiftEnd with _ | lastEnd
          · rfl
          · have hg := hgap lastEnd hprev
            simp [not_lt.mpr hg]
        · have hih := ih (updateWorkload w sel.id
            { hoursAssigned := (w sel.id).hoursAssigned +
                calculateShiftHours p.startMin p.endMin,
              lastShiftEnd := some p.endMin })
          have hupd : ((updateWorkload w sel.id
              { hoursAssigned := (w sel.id).hoursAssigned +
                  calculateShiftHours p.startMin p.endMin,
                lastShiftEnd := some p.endMin }) sel.id).lastShiftEnd =
              some p.endMin := by
            simp [updateWorkload]
          rw [hupd] at hih
          exact hih
      · simp only [assignLoop, hfind, List.filter_cons, show
          (({ agentId := sel.id, startMin := p.startMin, endMin := p.endMin,
              overtime := decide (8 < calculateShiftHours p.startMin p.endMin) } :
            Assignment).agentId == i) = false by simp [hsel], if_false]
        have hih := ih (updateWorkload w sel.id
            { hoursAssigned := (w sel.id).hoursAssigned +
                calculateShiftHours p.startMin p.endMin,
              lastShiftEnd := some p.endMin })
        have hupd : (updateWorkload w sel.id
            { hoursAssigned := (w sel.id).hoursAssigned +
                calculateShiftHours p.startMin p.endMin,
              lastShiftEnd := some p.endMin }) i = w i := by
          simp [updateWorkload, show ¬ (i = sel.id) from fun h => hsel h.symm]
        rw [hupd] at hih
        exact hih

/-- C7: every assignment produced by the assignment pipeline (over any
ordered template list, agent pool, time-off set and constraint set) is to
an agent with no approved time-off record covering the target date; each
agent's accumulated shift hours stay within max_hours_per_week; the gap
from each agent's previously assigned shift end to their next shift start
(measured by calculateTimeBetween, i.e. with the next shift on the
following day) is at least min_time_between_shifts; and a template for
which no eligible agent exists yields no assignment rather than an error —
the engine is total and returns at most one assignment per template. -/
theorem generateDailyShifts_assignment_invariants (date : ℕ) (agents : List Agent)
    (timeOffRequests : List TimeOffReq) (shiftPatterns : List Pattern)
    (constraints : Constraints) :
    (∀ a ∈ generateDailyAssignments date agents timeOffRequests shiftPatterns constraints,
      ∀ t ∈ timeOffRequests, t.status = TimeOffStatus.approved →
        t.start_date ≤ date → date ≤ t.end_date → t.agent_id ≠ a.agentId) ∧
    (∀ i : ℕ,
      ((generateDailyAssignments date agents timeOffRequests shiftPatterns
          constraints).filter (fun a => a.agentId == i) = []) ∨
      totalAssignedHours ((generateDailyAssignments date agents timeOffRequests
          shiftPatterns constraints).filter (fun a => a.agentId == i)) ≤
        constraints.max_hours_per_week) ∧
    (∀ i : ℕ, restOK constraints none
      ((generateDailyAssignments date agents timeOffRequests shiftPatterns
          constraints).filter (fun a => a.agentId == i)) = true) ∧
    (generateDailyAssignments date agents timeOffRequests shiftPatterns
        constraints).length ≤ shiftPatterns.length := by
  refine ⟨?_, ?_, ?_, ?_⟩
  · intro a ha t ht happ hst hed heq
    have ha2 : a ∈ assignLoop constraints
        (sortAgentsBySuitability (availableAgentsForDay agents
          (filterTimeOffForDate timeOffRequests date)))
        shiftPatterns initialWorkload := ha
    obtain ⟨ag, hag, hid⟩ := assignLoop_mem constraints _ shiftPatterns initialWorkload a ha2
    have hag2 : ag ∈ availableAgentsForDay agents
        (filterTimeOffForDate timeOffRequests date) :=
      (List.mergeSort_perm (availableAgentsForDay agents
        (filterTimeOffForDate timeOffRequests date))
        (fun a b => decide (suitabilityScore b ≤ suitabilityScore a))).mem_iff.mp hag
    simp only [availableAgentsForDay] at hag2
    have hpred := List.of_mem_filter hag2
    have hnot : ag.id ∉ ((filterTimeOffForDate timeOffRequests date).filter
        (fun t => decide (t.status = TimeOffStatus.approved))).map
        (fun t => t.agent_id) := of_decide_eq_true hpred
    apply hnot
    refine List.mem_map.mpr ⟨t, List.mem_filter.mpr ⟨?_, by simp [happ]⟩, ?_⟩
    · refine List.mem_filter.mpr ⟨ht, ?_⟩
      simp [filterTimeOffForDate, hst, hed]
    · rw [heq, hid]
  · intro i
    rcases assignLoop_hours constraints
        (sortAgentsBySuitability (availableAgentsForDay agents
          (filterTimeOffForDate timeOffRequests date)))
        i shiftPatterns initialWorkload with hemp | hle
    · exact Or.inl hemp
    · right
      have h0 : (initialWorkload i).hoursAssigned = 0 := rfl
      rw [h0, zero_add] at hle
      exact hle
  · intro i
    exact assignLoop_rest constraints
      (sortAgentsBySuitability (availableAgentsForDay agents
        (filterTimeOffForDate timeOffRequests date)))
      i shiftPatterns initialWorkload
  · exact assignLoop_length constraints
      (sortAgentsBySuitability (availableAgentsForDay agents
        (filterTimeOffForDate timeOffRequests date)))
      shiftPatterns initialWorkload

/-- A minimal agent for the C7 witness. -/
def agW : Agent := ⟨1, none, none, false, false⟩

/-- C7 witness: the invariants applied to a concrete day — one agent, one
8-hour template, no time-off requests, default constraints. -/
theorem generateDailyShifts_assignment_invariants_witness :
    ((generateDailyAssignments 0 [agW] [] [⟨480, 960⟩] getDefaultConstraints).filter
        (fun a => a.agentId == 1) = [] ∨
      totalAssignedHours ((generateDailyAssignments 0 [agW] [] [⟨480, 960⟩]
          getDefaultConstraints).filter (fun a => a.agentId == 1)) ≤
        getDefaultConstraints.max_hours_per_week) ∧
    restOK getDefaultConstraints none
      ((generateDailyAssignments 0 [agW] [] [⟨480, 960⟩] getDefaultConstraints).filter
        (fun a => a.agentId == 1)) = true ∧
    (generateDailyAssignments 0 [agW] [] [⟨480, 960⟩] getDefaultConstraints).length ≤
      List.length [(⟨480, 960⟩ : Pattern)] :=
  ⟨(generateDailyShifts_assignment_invariants 0 [agW] [] [⟨480, 960⟩]
      getDefaultConstraints).2.1 1,
   (generateDailyShifts_assignment_invariants 0 [agW] [] [⟨480, 960⟩]
      getDefaultConstraints).2.2.1 1,
   (generateDailyShifts_assignment_invariants 0 [agW] [] [⟨480, 960⟩]
      getDefaultConstraints).2.2.2⟩

end ShiftSched
